import Mathlib

/-!
Verification of the SNANA FITS data-format module
(`src/sntools_dataformat_fits.c`).

The file shallowly embeds the schema-driven table mapping layer:
the column registry (`wr_snfitsio_addCol`), the value marshaller
(`wr_snfitsio_fillTable` and the read-back coercions of
`RD_SNFITSIO_PARVAL`), the per-event row writer (`WR_SNFITSIO_UPDATE` /
`wr_snfitsio_update_head` / `wr_snfitsio_update_phot`), the required-key
validator (`check_required_headkeys`), the read mask
(`SET_RDMASK_SNFITSIO`) and the generic accessor's resolution and
epoch-block paths (`RD_SNFITSIO_PARVAL`).

The underlying cfitsio storage engine is out of scope for the module and
is modelled as an exact store: `fits_write_col` stores the passed cell
verbatim and the bulk readers return it verbatim; all marshalling logic
of the module itself is embedded faithfully.  Numeric payloads of the
floating-point forms (`1E`, `1D`) are carried as opaque integer codes:
the layer never re-encodes them, so bit-exact equality is equality of
codes.  16/32-bit integer payloads are carried as `Int`; the read-back
widening of a 16/32-bit integer to the C `double` output buffer is exact
(any integer of magnitude below 2^53 is exactly representable in
binary64), so it is embedded as the identity.  The widening of a 64-bit
`long long` (form `1K`) to `double` is lossy and is embedded by
`doubleRound`, the IEEE-754 round-to-nearest-even conversion of an
integer to binary64.
-/

/-- Classification of a FITS column form string, after
`formIndex_snfitsio` (src lines 4526-4566): a form whose last character
is `A` is a fixed-width string; otherwise the form must be one of the
exact tokens `1J`, `1I`, `1E`, `1D`, `1K`; anything else is fatal
(`none`). -/
inductive Form where
  | A    -- fixed-width string
  | J1   -- 32-bit signed int ("1J")
  | I1   -- 16-bit signed int ("1I")
  | E1   -- 32-bit float ("1E")
  | D1   -- 64-bit double ("1D")
  | K1   -- 64-bit long long ("1K")
deriving DecidableEq, Repr

/-- `formIndex_snfitsio` (src lines 4526-4566): classify a form string.
The C code checks the last character against `A` first, then matches the
whole string against the five numeric tokens, and aborts otherwise. -/
def formIndex_snfitsio (form : String) : Option Form :=
  if form.data.getLast? = some 'A' then some .A
  else if form = "1J" then some .J1
  else if form = "1I" then some .I1
  else if form = "1E" then some .E1
  else if form = "1D" then some .D1
  else if form = "1K" then some .K1
  else none

/-- One marshalled table cell.  String cells carry the string; `I1`/`J1`/
`K1` carry the integer value; `E1`/`D1` carry the stored float/double as
an opaque integer code (this layer only moves those payloads, so any
injective encoding is faithful and bit-exact equality is code
equality). -/
inductive FitsVal where
  | A  (s : String)
  | I1 (v : Int)
  | J1 (v : Int)
  | E1 (code : Int)
  | D1 (code : Int)
  | K1 (v : Int)
deriving DecidableEq, Repr

/-- Round a natural number to the nearest multiple of `2 ^ e`, ties to
even (the IEEE-754 rounding step used when an integer needs more
significand bits than the destination format offers). -/
def roundEven (n : Nat) (e : Nat) : Nat :=
  let q := n / 2 ^ e
  let r := n % 2 ^ e
  let h := 2 ^ e / 2
  if r < h then q * 2 ^ e
  else if h < r then (q + 1) * 2 ^ e
  else if q % 2 = 0 then q * 2 ^ e else (q + 1) * 2 ^ e

/-- The value of the C conversion `(double)K_VAL` for a 64-bit integer
(src line 4859 of `RD_SNFITSIO_PARVAL`): exact when the magnitude fits
in 53 significand bits (in particular whenever `|k| ≤ 2 ^ 53`),
otherwise rounded to nearest even at the scale forced by the binary64
significand width.  No 64-bit integer overflows binary64's exponent
range, so the conversion is total. -/
def doubleRound (k : Int) : Int :=
  let n := k.natAbs
  if n ≤ 2 ^ 53 then k
  else Int.sign k * (roundEven n (Nat.log2 n + 1 - 53) : Int)

/-- The coercion `RD_SNFITSIO_PARVAL` applies when loading a stored cell
into its output buffers (src lines 4814-4860): strings are copied to
`parString`, `1I`/`1J` integers are widened exactly to the `double`
output, `1E`/`1D` payloads are moved without re-encoding, and `1K`
64-bit integers are converted to `double` (lossy above 2^53). -/
def rdCoerce : FitsVal → FitsVal
  | .K1 v => .K1 (doubleRound v)
  | v => v

/-- The value slots of `WR_SNFITSIO_TABLEVAL[itype]` that
`wr_snfitsio_fillTable` reads, one per column form. -/
structure TableValSlots where
  value_A  : String := ""
  value_1D : Int := 0
  value_1E : Int := 0
  value_1J : Int := 0
  value_1I : Int := 0
  value_1K : Int := 0
deriving DecidableEq, Repr

deriving instance DecidableEq for Except

/-- The fatal-error taxonomy of the embedded paths (each constructor is
one `errmsg(SEV_FATAL, ...)` site). -/
inductive FitsErr where
  | blankString (parName : String)            -- fillTable, src line 1838
  | unrecognizedForm (form parName : String)  -- fillTable, src line 1868
  | nuseMismatch (nuse nobs : Int)            -- WR_SNFITSIO_UPDATE, src line 1154
  | colOverflow (npar : Nat)                  -- wr_snfitsio_addCol, src line 521
  | maskSizeMismatch (nep nobs : Int)         -- RD_SNFITSIO_PARVAL, src line 4787
  | maskInvalid (jval : Int)                  -- SET_RDMASK_SNFITSIO, src line 4597
  | nepBound (nep : Int)                      -- SET_RDMASK_SNFITSIO, src line 4582
  | missingKeys (keys : List String)          -- check_required_headkeys, src line 4215
deriving DecidableEq, Repr

/-- `wr_snfitsio_fillTable` (src lines 1792-1882), marshalling one cell:
dispatch on the column's form string (last character `A` first, then the
exact numeric tokens in source order `1D`, `1E`, `1J`, `1I`, `1K`);
a blank string is fatal unless the parameter name is exactly
`SUBSURVEY`; an unrecognized form is fatal.  The cfitsio
`fits_write_col` call is the exact store, so the function returns the
cell written. -/
def wr_snfitsio_fillTable (form parName : String) (slots : TableValSlots) :
    Except FitsErr FitsVal :=
  if form.data.getLast? = some 'A' then
    let ALLOW_BLANK := parName = "SUBSURVEY"
    if slots.value_A.length = 0 ∧ ¬ ALLOW_BLANK then
      .error (.blankString parName)
    else
      .ok (.A slots.value_A)
  else if form = "1D" then .ok (.D1 slots.value_1D)
  else if form = "1E" then .ok (.E1 slots.value_1E)
  else if form = "1J" then .ok (.J1 slots.value_1J)
  else if form = "1I" then .ok (.I1 slots.value_1I)
  else if form = "1K" then .ok (.K1 slots.value_1K)
  else .error (.unrecognizedForm form parName)

/-- The column registry of one table kind:
`SNFITSIO_TABLEDEF[itype]` restricted to the declared `(name, form)`
pairs; the 1-based ordinal of a column is its position in the list
plus one. -/
structure TableDef where
  cols : List (String × String) := []
deriving DecidableEq, Repr

/-- `wr_snfitsio_addCol` (src lines 506-544): increment the column
counter, abort if the incremented count reaches the fixed bound
`MXPAR_SNFITSIO` (passed here as the argument `MXPAR`, since the bound
lives in the module's header file), otherwise store the name and form at
the new 1-based ordinal.  The C code performs no validation of `name`
(in particular no blank check). -/
def wr_snfitsio_addCol (MXPAR : Nat) (tform name : String) (st : TableDef) :
    Except FitsErr TableDef :=
  let NPAR := st.cols.length + 1
  if NPAR ≥ MXPAR then .error (.colOverflow NPAR)
  else .ok ⟨st.cols ++ [(name, tform)]⟩

/-- The scan loop of `IPAR_SNFITSIO` (src lines 2186-2196): walk the
declared names carrying the 1-based index `ipar`, return the index of
the first match, `-9` when the scan falls off the end. -/
def ipar_scan : List String → String → Nat → Int
  | [], _, _ => -9
  | s :: rest, parName, ipar =>
    if s = parName then (ipar : Int) else ipar_scan rest parName (ipar + 1)

/-- `IPAR_SNFITSIO` with `OPT = 0` (src lines 2174-2205): linear scan of
the declared column names, returning the 1-based column index of the
first match, or `-9` when the name is absent. -/
def IPAR_SNFITSIO (names : List String) (parName : String) : Int :=
  ipar_scan names parName 1

/-- The hard-wired required header keys of `check_required_headkeys`
(src lines 4174-4192), in source order. -/
def REQUIRED_HEADKEYS : List String :=
  ["SNID", "FAKE", "NOBS", "PTROBS_MIN", "PTROBS_MAX"]

/-- `check_required_headkeys` (src lines 4158-4223): look up every
required key by name, count and report every missing one, and abort
once at the end if any was missing (collect-all-then-report). -/
def check_required_headkeys (headNames : List String) : Except FitsErr Unit :=
  let missing := REQUIRED_HEADKEYS.filter
    (fun k => IPAR_SNFITSIO headNames k < 0)
  if missing.length > 0 then .error (.missingKeys missing) else .ok ()

/-- One Photometry-table row.  The five fields the end-of-event marker
overwrites (`MJD`, `BAND`, `FIELD`, `FLUXCAL`, `FLUXCAL_ERRTOT`) are
named; every remaining per-epoch cell of the row is carried in
`others`.  `MJD` is a `1D` payload and `FLUXCAL`/`FLUXCAL_ERRTOT` are
`1E` payloads, carried as opaque codes. -/
structure PhotRow where
  MJD : Int
  BAND : String
  FIELD : String
  FLUXCAL : Int
  FLUXCAL_ERRTOT : Int
  others : List FitsVal := []
deriving DecidableEq, Repr

/-- The Header-table cells that carry the photometry pointers, from one
call of `wr_snfitsio_update_head` (src lines 1181-1788); the remaining
scalar header cells of the row are carried in `others`. -/
structure HeadRow where
  NOBS : Int
  PTROBS_MIN : Int
  PTROBS_MAX : Int
  others : List FitsVal := []
deriving DecidableEq, Repr

/-- The slice of `SNDATA` that one `WR_SNFITSIO_UPDATE` call consumes:
the epoch count `NEPOCH`, the declared observation count `NOBS`, the
per-epoch write flags `OBSFLAG_WRITE`, the per-epoch row data `row`
(defined for epochs `1..NEPOCH`, plus the scratch slot `NEPOCH+1` that
the end-of-event marker overwrites), and the scalar header cells. -/
structure Event where
  NEPOCH : Nat
  NOBS : Int
  OBSFLAG_WRITE : Nat → Bool
  row : Nat → PhotRow
  headOthers : List FitsVal := []

/-- Modelled from the spec: `SNFITSIO_EOE_MARKER`, the reserved
end-of-event sentinel value written into the `MJD`, `FLUXCAL` and
`FLUXCAL_ERRTOT` fields of the synthetic row.  Its numeric value is
defined in the module's header file `sntools_dataformat_fits.h`, which
is not part of the sources here; the spec only requires it to be a
reserved marker value, represented here by a fixed code. -/
def SNFITSIO_EOE_MARKER : Int := -777

/-- The end-of-event row that `WR_SNFITSIO_UPDATE` fabricates at epoch
`NEPOCH + 1` (src lines 1131-1138): the sentinel in the three numeric
fields, `-` for the band and `XXXX` for the field name; every other
cell of the scratch slot is left as-is. -/
def eoeRow (ev : Event) : PhotRow :=
  { ev.row (ev.NEPOCH + 1) with
    MJD := SNFITSIO_EOE_MARKER
    FLUXCAL := SNFITSIO_EOE_MARKER
    FLUXCAL_ERRTOT := SNFITSIO_EOE_MARKER
    BAND := "-"
    FIELD := "XXXX" }

/-- The epochs `1..NEPOCH` whose write flag is set, in epoch order (the
epochs the loop of src lines 1142-1150 passes to
`wr_snfitsio_update_phot`, excluding the synthetic epoch
`NEPOCH + 1`). -/
def usedEpochs (ev : Event) : List Nat :=
  ((List.range ev.NEPOCH).map (· + 1)).filter ev.OBSFLAG_WRITE

/-- The Photometry rows actually emitted for the event's real epochs. -/
def photRowsOf (ev : Event) : List PhotRow :=
  (usedEpochs ev).map ev.row

/-- The write-side session state: the rows written so far to the Header
and Photometry tables of the open partition.  The row counters
`WR_SNFITSIO_TABLEVAL[itype].NROW` are the list lengths (each
`wr_snfitsio_update_head` / `wr_snfitsio_update_phot` call increments
the counter and writes exactly one row at that position). -/
structure WrState where
  headRows : List HeadRow := []
  photRows : List PhotRow := []
deriving DecidableEq, Repr

/-- `WR_SNFITSIO_UPDATE` (src lines 1108-1173) together with
`wr_snfitsio_update_head` (src lines 1181-1788): first the header row,
whose pointers are computed from the Photometry row counter before this
event's epochs are written (`PTROBS_MIN = NROW_phot + 1`,
`PTROBS_MAX = PTROBS_MIN - 1 + NOBS`, src lines 1199-1200); then one
Photometry row per flagged epoch followed by the end-of-event row; and
finally the fatal check that the number of real epochs written equals
`NOBS` (src lines 1154-1158). -/
def WR_SNFITSIO_UPDATE (st : WrState) (ev : Event) : Except FitsErr WrState :=
  let PTROBS_MIN : Int := (st.photRows.length : Int) + 1
  let PTROBS_MAX : Int := PTROBS_MIN - 1 + ev.NOBS
  let head : HeadRow :=
    { NOBS := ev.NOBS, PTROBS_MIN := PTROBS_MIN, PTROBS_MAX := PTROBS_MAX
      others := ev.headOthers }
  let NUSE_EPOCH : Int := ((usedEpochs ev).length : Int)
  if NUSE_EPOCH ≠ ev.NOBS then .error (.nuseMismatch NUSE_EPOCH ev.NOBS)
  else .ok
    { headRows := st.headRows ++ [head]
      photRows := st.photRows ++ (photRowsOf ev ++ [eoeRow ev]) }

/-- A sequence of `WR_SNFITSIO_UPDATE` calls starting from a given
session state, stopping at the first fatal error. -/
def runEventsFrom : WrState → List Event → Except FitsErr WrState
  | st, [] => .ok st
  | st, ev :: evs =>
    match WR_SNFITSIO_UPDATE st ev with
    | .error e => .error e
    | .ok st1 => runEventsFrom st1 evs

/-- A full partition write: events written in order into the freshly
created (empty) Header and Photometry tables. -/
def runEvents (evs : List Event) : Except FitsErr WrState :=
  runEventsFrom {} evs

/-- The outcome of `RD_SNFITSIO_PARVAL`'s parameter-resolution step:
the updated caller-held pointer `iptr`, the resolved
`(itype, column)` pair when a column was found, the immediate return
value when the call short-circuits (`some 0` on the not-present paths),
and whether the linear name search ran during this call. -/
structure ResolveOut where
  iptr : Int
  found : Option (Nat × Int)
  retval : Option Int
  searched : Bool
deriving DecidableEq, Repr

/-- The resolution step of `RD_SNFITSIO_PARVAL` (src lines 4707-4737):
on the first record of the open file-pair the caller-held pointer is
reset to `-9` so the search reruns; a pointer equal to `-999` means the
name was previously resolved to not-present and the call returns 0
without searching; otherwise the Header then the Photometry column
names are scanned linearly, the pointer is set to
`icol + itype * MXPAR_SNFITSIO` on a hit, and to `-999` (returning 0)
when both scans miss.  `MXPAR` stands for `MXPAR_SNFITSIO`, defined in
the module's header file. -/
def rd_snfitsio_parval_resolve (MXPAR : Nat) (isn ISNFIRST iptr0 : Int)
    (headNames photNames : List String) (parName : String) : ResolveOut :=
  let iptr1 := if isn = ISNFIRST then -9 else iptr0
  if iptr1 = -999 then
    { iptr := iptr1, found := none, retval := some 0, searched := false }
  else
    let icolH := IPAR_SNFITSIO headNames parName
    if icolH > 0 then
      { iptr := icolH, found := some (0, icolH), retval := none
        searched := true }
    else
      let icolP := IPAR_SNFITSIO photNames parName
      if icolP > 0 then
        { iptr := icolP + MXPAR, found := some (1, icolP), retval := none
          searched := true }
      else
        { iptr := -999, found := none, retval := some 0, searched := true }

/-- The value-collection loop of `RD_SNFITSIO_PARVAL`
(src lines 4803-4863) over one epoch block: the stored column cells in
row order, the read-mask entries consumed in lockstep; when the mask is
active an epoch with mask entry 0 is skipped, every surviving cell is
coerced into the output buffers in order. -/
def rd_parval_loop (maskActive : Bool) : List FitsVal → List Int → List FitsVal
  | [], _ => []
  | v :: vs, ms =>
    if maskActive ∧ ms.headD 0 = 0 then rd_parval_loop maskActive vs ms.tail
    else rdCoerce v :: rd_parval_loop maskActive vs ms.tail

/-- The Photometry branch of `RD_SNFITSIO_PARVAL` (src lines 4761-4874)
for one record: `colVals` is the stored column over the record's row
range `[PTROBS_MIN, PTROBS_MAX]` (so `NPARVAL = colVals.length` is the
record's `NOBS`), `NEP_RDMASK` and `RDMASK` are the global read-mask
state.  An active mask whose size differs from `NPARVAL` is fatal
(src lines 4786-4791); the mask is consulted whenever `NEP_RDMASK ≠ 0`
(the C truth test of src line 4807); if every epoch fails the mask the
function returns `-9`, otherwise the number of values stored. -/
def rd_snfitsio_parval_phot (colVals : List FitsVal) (NEP_RDMASK : Int)
    (RDMASK : List Int) : Except FitsErr (Int × List FitsVal) :=
  let NPARVAL := colVals.length
  if NEP_RDMASK > 0 ∧ NEP_RDMASK ≠ (NPARVAL : Int) then
    .error (.maskSizeMismatch NEP_RDMASK (NPARVAL : Int))
  else
    let out := rd_parval_loop (NEP_RDMASK ≠ 0) colVals RDMASK
    if out.length = 0 then .ok (-9, out)
    else .ok ((out.length : Int), out)

/-- `SET_RDMASK_SNFITSIO` (src lines 4570-4606): abort if `NEP` reaches
the fixed epoch bound `MXEPOCH` (passed as an argument, since the bound
lives outside this module's sources); store `NEP`; with `NEP = 0` the
mask is turned off and the mask array is ignored; otherwise every entry
`mask[0..NEP-1]` must be 0 or 1 (first offender is fatal) and the
entries are stored.  The result is the stored global state
`(NEP_RDMASK_SNFITSIO_PARVAL, RDMASK_SNFITSIO_PARVAL)`. -/
def SET_RDMASK_SNFITSIO (MXEPOCH : Nat) (NEP : Int) (mask : List Int) :
    Except FitsErr (Int × List Int) :=
  if NEP ≥ (MXEPOCH : Int) then .error (.nepBound NEP)
  else if NEP = 0 then .ok (0, [])
  else
    match (mask.take NEP.toNat).find? (fun JVAL => ¬ (JVAL = 0 ∨ JVAL = 1)) with
    | some JVAL => .error (.maskInvalid JVAL)
    | none => .ok (NEP, mask.take NEP.toNat)

/-- A cell survives the read-back coercion exactly: every form except
`1K` always does; a `1K` cell does exactly when its 64-bit value fits in
the 53 significand bits of the `double` output buffer. -/
def kFits : FitsVal → Prop :=
  fun v => ∀ k, v = FitsVal.K1 k → Int.natAbs k ≤ 2 ^ 53

/-- A concrete Photometry row used to exercise the write path. -/
def rA : PhotRow :=
  { MJD := 100, BAND := "g", FIELD := "F", FLUXCAL := 5, FLUXCAL_ERRTOT := 6 }

/-- A concrete one-epoch event whose single epoch is flagged for
writing and whose declared `NOBS` matches. -/
def evA : Event :=
  { NEPOCH := 1, NOBS := 1, OBSFLAG_WRITE := fun _ => true, row := fun _ => rA }

/-- A concrete event whose declared `NOBS` (2) deliberately disagrees
with its single flagged epoch. -/
def evBad : Event :=
  { NEPOCH := 1, NOBS := 2, OBSFLAG_WRITE := fun _ => true, row := fun _ => rA }

/-- The end-of-event row produced for `evA`. -/
def eoeA : PhotRow :=
  { MJD := SNFITSIO_EOE_MARKER, BAND := "-", FIELD := "XXXX",
    FLUXCAL := SNFITSIO_EOE_MARKER, FLUXCAL_ERRTOT := SNFITSIO_EOE_MARKER }

/-- The session state after writing `evA` twice into a fresh
partition. -/
def stAA : WrState :=
  { headRows := [⟨1, 1, 1, []⟩, ⟨1, 3, 3, []⟩]
    photRows := [rA, eoeA, rA, eoeA] }

/-- The pointer bookkeeping invariant of a write session: every header
row's pointer range has exactly `NOBS` rows; consecutive header rows are
separated by exactly one Photometry row (the end-of-event row of the
earlier record); and the Photometry row counter sits one past the last
record's `PTROBS_MAX` (its end-of-event row). -/
def PtrInv (st : WrState) : Prop :=
  (∀ hd ∈ st.headRows, hd.PTROBS_MAX - hd.PTROBS_MIN + 1 = hd.NOBS) ∧
  List.Chain' (fun a b => a.PTROBS_MAX + 2 = b.PTROBS_MIN) st.headRows ∧
  (match st.headRows.getLast? with
   | some hd => (st.photRows.length : Int) = hd.PTROBS_MAX + 1
   | none => st.photRows = [])

theorem ipar_scan_of_not_mem (names : List String) (parName : String)
    (i : Nat) (h : parName ∉ names) : ipar_scan names parName i = -9 := by
  induction names generalizing i with
  | nil => rfl
  | cons s rest ih =>
    rw [List.mem_cons, not_or] at h
    rw [ipar_scan, if_neg (fun hs => h.1 hs.symm)]
    exact ih _ h.2

theorem ipar_scan_le_of_mem (names : List String) (parName : String)
    (i : Nat) (h : parName ∈ names) :
    (i : Int) ≤ ipar_scan names parName i := by
  induction names generalizing i with
  | nil => cases h
  | cons s rest ih =>
    rw [ipar_scan]
    by_cases hs : s = parName
    · rw [if_pos hs]
    · rw [if_neg hs]
      have hm : parName ∈ rest := by
        rcases List.mem_cons.mp h with h1 | h1
        · exact absurd h1.symm hs
        · exact h1
      calc (i : Int) ≤ ((i + 1 : Nat) : Int) := by push_cast; omega
        _ ≤ _ := ih (i + 1) hm

theorem ipar_scan_append_fresh (names : List String) (parName : String)
    (i : Nat) (h : parName ∉ names) :
    ipar_scan (names ++ [parName]) parName i = (i : Int) + names.length := by
  induction names generalizing i with
  | nil => simp [ipar_scan]
  | cons s rest ih =>
    rw [List.mem_cons, not_or] at h
    rw [List.cons_append, ipar_scan, if_neg (fun hs => h.1 hs.symm), ih _ h.2,
      List.length_cons]
    push_cast
    omega

theorem IPAR_SNFITSIO_of_not_mem (names : List String) (parName : String)
    (h : parName ∉ names) : IPAR_SNFITSIO names parName = -9 :=
  ipar_scan_of_not_mem names parName 1 h

theorem IPAR_SNFITSIO_pos_of_mem (names : List String) (parName : String)
    (h : parName ∈ names) : 0 < IPAR_SNFITSIO names parName :=
  lt_of_lt_of_le (by norm_num) (ipar_scan_le_of_mem names parName 1 h)

theorem IPAR_SNFITSIO_neg_iff (names : List String) (parName : String) :
    IPAR_SNFITSIO names parName < 0 ↔ parName ∉ names := by
  constructor
  · intro h hmem
    exact absurd h (not_lt.mpr (le_of_lt (IPAR_SNFITSIO_pos_of_mem names parName hmem)))
  · intro h
    rw [IPAR_SNFITSIO_of_not_mem names parName h]
    norm_num

theorem WR_update_ok {st st' : WrState} {ev : Event}
    (h : WR_SNFITSIO_UPDATE st ev = .ok st') :
    ((usedEpochs ev).length : Int) = ev.NOBS ∧
    st'.headRows = st.headRows ++
      [{ NOBS := ev.NOBS, PTROBS_MIN := (st.photRows.length : Int) + 1,
         PTROBS_MAX := (st.photRows.length : Int) + ev.NOBS,
         others := ev.headOthers }] ∧
    st'.photRows = st.photRows ++ (photRowsOf ev ++ [eoeRow ev]) := by
  simp only [WR_SNFITSIO_UPDATE] at h
  split at h
  · cases h
  · rename_i hne
    push_neg at hne
    injection h with h1
    subst h1
    refine ⟨hne, ?_, rfl⟩
    have harith : (st.photRows.length : Int) + 1 - 1 + ev.NOBS =
        (st.photRows.length : Int) + ev.NOBS := by ring
    rw [harith]

theorem runEventsFrom_cons_ok {st st' : WrState} {ev : Event} {evs : List Event}
    (h : runEventsFrom st (ev :: evs) = .ok st') :
    ∃ st1, WR_SNFITSIO_UPDATE st ev = .ok st1 ∧
      runEventsFrom st1 evs = .ok st' := by
  rw [runEventsFrom] at h
  cases hw : WR_SNFITSIO_UPDATE st ev with
  | error e => rw [hw] at h; cases h
  | ok st1 => rw [hw] at h; exact ⟨st1, rfl, h⟩

theorem runEventsFrom_append_ok {evs1 evs2 : List Event} {st st' : WrState}
    (h : runEventsFrom st (evs1 ++ evs2) = .ok st') :
    ∃ st1, runEventsFrom st evs1 = .ok st1 ∧
      runEventsFrom st1 evs2 = .ok st' := by
  induction evs1 generalizing st with
  | nil => exact ⟨st, rfl, h⟩
  | cons ev rest ih =>
    rw [List.cons_append] at h
    obtain ⟨st1, hw, hrest⟩ := runEventsFrom_cons_ok h
    obtain ⟨st2, h1, h2⟩ := ih hrest
    refine ⟨st2, ?_, h2⟩
    rw [runEventsFrom, hw]
    exact h1

theorem runEventsFrom_extends {evs : List Event} {st st' : WrState}
    (h : runEventsFrom st evs = .ok st') :
    ∃ hs ps, st'.headRows = st.headRows ++ hs ∧
      st'.photRows = st.photRows ++ ps := by
  induction evs generalizing st with
  | nil =>
    rw [runEventsFrom] at h
    injection h with h1
    subst h1
    exact ⟨[], [], by simp, by simp⟩
  | cons ev rest ih =>
    obtain ⟨st1, hw, hrest⟩ := runEventsFrom_cons_ok h
    obtain ⟨hn, hh, hp⟩ := WR_update_ok hw
    obtain ⟨hs, ps, hh2, hp2⟩ := ih hrest
    refine ⟨[{ NOBS := ev.NOBS, PTROBS_MIN := (st.photRows.length : Int) + 1,
               PTROBS_MAX := (st.photRows.length : Int) + ev.NOBS,
               others := ev.headOthers }] ++ hs,
            (photRowsOf ev ++ [eoeRow ev]) ++ ps, ?_, ?_⟩
    · rw [hh2, hh, List.append_assoc]
    · rw [hp2, hp, List.append_assoc]

theorem WR_update_PtrInv {st st' : WrState} {ev : Event}
    (hinv : PtrInv st) (h : WR_SNFITSIO_UPDATE st ev = .ok st') :
    PtrInv st' := by
  obtain ⟨hn, hh, hp⟩ := WR_update_ok h
  obtain ⟨inv1, inv2, inv3⟩ := hinv
  have hlenPR : ((photRowsOf ev).length : Int) = ev.NOBS := by
    rw [photRowsOf, List.length_map]
    exact hn
  refine ⟨?_, ?_, ?_⟩
  · intro hd hmem
    rw [hh] at hmem
    rcases List.mem_append.mp hmem with hm | hm
    · exact inv1 hd hm
    · rw [List.mem_singleton] at hm
      subst hm
      ring
  · rw [hh]
    refine List.Chain'.append inv2 (List.chain'_singleton _) ?_
    intro x hx y hy
    simp only [List.head?_cons, Option.mem_def, Option.some_inj] at hy
    subst hy
    cases hlast : st.headRows.getLast? with
    | none => rw [hlast] at hx; cases hx
    | some last =>
      rw [hlast] at hx inv3
      have hx2 : last = x := by simpa using hx
      subst hx2
      show last.PTROBS_MAX + 2 = (st.photRows.length : Int) + 1
      omega
  · rw [hh, hp, List.getLast?_concat]
    simp only [List.length_append, List.length_cons, List.length_nil]
    push_cast
    omega

theorem PtrInv_empty : PtrInv {} := by
  refine ⟨?_, ?_, ?_⟩
  · intro hd hmem
    cases hmem
  · exact List.chain'_nil
  · rfl

theorem runEventsFrom_PtrInv {evs : List Event} {st st' : WrState}
    (hinv : PtrInv st) (h : runEventsFrom st evs = .ok st') : PtrInv st' := by
  induction evs generalizing st with
  | nil =>
    rw [runEventsFrom] at h
    injection h with h1
    subst h1
    exact hinv
  | cons ev rest ih =>
    obtain ⟨st1, hw, hrest⟩ := runEventsFrom_cons_ok h
    exact ih (WR_update_PtrInv hinv hw) hrest

theorem runEventsFrom_slice {evs : List Event} {st st' : WrState}
    (h : runEventsFrom st evs = .ok st') :
    ∀ r, (hr : r < evs.length) →
      ∃ hd, st'.headRows[st.headRows.length + r]? = some hd ∧
        (st'.photRows.take hd.PTROBS_MAX.toNat).drop (hd.PTROBS_MIN.toNat - 1)
          = photRowsOf (evs.get ⟨r, hr⟩) := by
  induction evs generalizing st with
  | nil =>
    intro r hr
    exact absurd hr (Nat.not_lt_zero r)
  | cons ev rest ih =>
    obtain ⟨st1, hw, hrest⟩ := runEventsFrom_cons_ok h
    obtain ⟨hn, hh, hp⟩ := WR_update_ok hw
    intro r hr
    cases r with
    | zero =>
      obtain ⟨hs, ps, hh2, hp2⟩ := runEventsFrom_extends hrest
      have hlenPR : (photRowsOf ev).length = (usedEpochs ev).length := by
        rw [photRowsOf, List.length_map]
      refine ⟨{ NOBS := ev.NOBS, PTROBS_MIN := (st.photRows.length : Int) + 1,
                PTROBS_MAX := (st.photRows.length : Int) + ev.NOBS,
                others := ev.headOthers }, ?_, ?_⟩
      · rw [hh2, hh, List.append_assoc, Nat.add_zero,
          List.getElem?_append_right (le_refl st.headRows.length)]
        simp
      · have hmax : ((st.photRows.length : Int) + ev.NOBS).toNat =
            st.photRows.length + (photRowsOf ev).length := by
          rw [hlenPR]
          omega
        have hmin : (((st.photRows.length : Int) + 1)).toNat - 1 =
            st.photRows.length := by omega
        rw [hp2, hp, List.append_assoc, List.append_assoc]
        show ((st.photRows ++ (photRowsOf ev ++ ([eoeRow ev] ++ ps))).take
            (((st.photRows.length : Int) + ev.NOBS)).toNat).drop
            ((((st.photRows.length : Int) + 1)).toNat - 1) = photRowsOf ev
        rw [hmax, hmin, List.take_append, List.take_left, List.drop_left]
    | succ r1 =>
      have hr1 : r1 < rest.length := Nat.lt_of_succ_lt_succ hr
      obtain ⟨hd, hget, hslice⟩ := ih hrest r1 hr1
      have hlen1 : st1.headRows.length = st.headRows.length + 1 := by
        rw [hh]
        simp
      have hidx : st.headRows.length + (r1 + 1) = st1.headRows.length + r1 := by
        omega
      refine ⟨hd, ?_, hslice⟩
      rw [hidx]
      exact hget

theorem string_length_zero {s : String} (h : s.length = 0) : s = "" := by
  cases s with
  | mk data =>
    simp [String.length] at h
    simp [h]

/-- C4: opening a Header table whose introspected column list is missing
any of the five required columns {SNID, FAKE, NOBS, PTROBS_MIN,
PTROBS_MAX} fails fatally through `check_required_headkeys`, and the
error carries every missing required column name
(collect-all-then-report), not just the first one encountered. -/
theorem C4_required_headkeys (headNames : List String)
    (hmiss : ∃ k ∈ REQUIRED_HEADKEYS, k ∉ headNames) :
    ∃ missing, check_required_headkeys headNames =
        .error (.missingKeys missing) ∧
      ∀ k, k ∈ missing ↔ (k ∈ REQUIRED_HEADKEYS ∧ k ∉ headNames) := by
  obtain ⟨k0, hk0req, hk0⟩ := hmiss
  have hmem : k0 ∈ REQUIRED_HEADKEYS.filter
      (fun k => decide ( IPAR_SNFITSIO headNames k < 0)) := by
    rw [List.mem_filter]
    exact ⟨hk0req, by simp [(IPAR_SNFITSIO_neg_iff headNames k0).mpr hk0]⟩
  refine ⟨REQUIRED_HEADKEYS.filter
      (fun k => decide ( IPAR_SNFITSIO headNames k < 0)), ?_, ?_⟩
  · simp only [check_required_headkeys]
    rw [if_pos (List.length_pos.mpr (List.ne_nil_of_mem hmem))]
  · intro k
    rw [List.mem_filter]
    constructor
    · rintro ⟨h1, h2⟩
      refine ⟨h1, ?_⟩
      rw [← IPAR_SNFITSIO_neg_iff headNames k]
      simpa using h2
    · rintro ⟨h1, h2⟩
      exact ⟨h1, by simp [(IPAR_SNFITSIO_neg_iff headNames k).mpr h2]⟩

/-- C4 witness: a Header table offering only SNID, NOBS and PTROBS_MIN
fails with both FAKE and PTROBS_MAX reported. -/
theorem C4_required_headkeys_witness :
    ∃ missing, check_required_headkeys ["SNID", "NOBS", "PTROBS_MIN"] =
        .error (.missingKeys missing) ∧
      ∀ k, k ∈ missing ↔
        (k ∈ REQUIRED_HEADKEYS ∧ k ∉ ["SNID", "NOBS", "PTROBS_MIN"]) :=
  C4_required_headkeys ["SNID", "NOBS", "PTROBS_MIN"]
    ⟨"FAKE", by decide, by decide⟩

/-- C5: the number of epochs emitted as Photometry rows for a record
(the flagged epochs, excluding the synthetic end-of-event row) must
equal the record's declared observation count: when they agree the
update succeeds, appending exactly those rows plus the end-of-event row;
when they differ the update aborts through the epoch-count-mismatch
error path. -/
theorem C5_epoch_count (st : WrState) (ev : Event) :
    (((usedEpochs ev).length : Int) = ev.NOBS →
      ∃ st', WR_SNFITSIO_UPDATE st ev = .ok st' ∧
        st'.photRows = st.photRows ++ (photRowsOf ev ++ [eoeRow ev]) ∧
        st'.photRows.length =
          st.photRows.length + (usedEpochs ev).length + 1) ∧
    (((usedEpochs ev).length : Int) ≠ ev.NOBS →
      WR_SNFITSIO_UPDATE st ev =
        .error (.nuseMismatch ((usedEpochs ev).length : Int) ev.NOBS)) := by
  constructor
  · intro heq
    simp only [WR_SNFITSIO_UPDATE]
    rw [if_neg (fun hcon => hcon heq)]
    refine ⟨_, rfl, rfl, ?_⟩
    simp only [List.length_append, List.length_cons, List.length_nil,
      photRowsOf, List.length_map]
    omega
  · intro hne
    simp only [WR_SNFITSIO_UPDATE]
    rw [if_pos hne]

/-- C5 witness: `evA` (one flagged epoch, `NOBS = 1`) succeeds and
appends two rows; `evBad` (one flagged epoch, `NOBS = 2`) aborts with
the mismatch error. -/
theorem C5_epoch_count_witness :
    (∃ st', WR_SNFITSIO_UPDATE {} evA = .ok st' ∧
      st'.photRows = WrState.photRows {} ++ (photRowsOf evA ++ [eoeRow evA]) ∧
      st'.photRows.length =
        (WrState.photRows {}).length + (usedEpochs evA).length + 1) ∧
    WR_SNFITSIO_UPDATE {} evBad =
      .error (.nuseMismatch ((usedEpochs evBad).length : Int) evBad.NOBS) :=
  ⟨(C5_epoch_count {} evA).1 (by decide),
   (C5_epoch_count {} evBad).2 (by decide)⟩

/-- C6: a string-typed cell write through `wr_snfitsio_fillTable`
fatally rejects the empty string, except for the column named
`SUBSURVEY`, where the empty string is accepted and written; non-empty
strings are always written. -/
theorem C6_blank_string (form parName : String) (slots : TableValSlots)
    (hA : form.data.getLast? = some 'A') :
    (slots.value_A = "" → parName ≠ "SUBSURVEY" →
      wr_snfitsio_fillTable form parName slots =
        .error (.blankString parName)) ∧
    (parName = "SUBSURVEY" →
      wr_snfitsio_fillTable form parName slots = .ok (.A slots.value_A)) ∧
    (slots.value_A ≠ "" →
      wr_snfitsio_fillTable form parName slots = .ok (.A slots.value_A)) := by
  refine ⟨?_, ?_, ?_⟩
  · intro hempty hsub
    rw [wr_snfitsio_fillTable, if_pos hA, if_pos ⟨by rw [hempty]; rfl, hsub⟩]
  · intro hsub
    rw [wr_snfitsio_fillTable, if_pos hA, if_neg (fun hcon => hcon.2 hsub)]
  · intro hne
    rw [wr_snfitsio_fillTable, if_pos hA,
      if_neg (fun hcon => hne (string_length_zero hcon.1))]

/-- C6 witness: the empty string is rejected for SNID (a 16A column) and
accepted for SUBSURVEY (a 40A column). -/
theorem C6_blank_string_witness :
    wr_snfitsio_fillTable "16A" "SNID" { value_A := "" } =
      .error (.blankString "SNID") ∧
    wr_snfitsio_fillTable "40A" "SUBSURVEY" { value_A := "" } =
      .ok (.A "") :=
  ⟨(C6_blank_string "16A" "SNID" { value_A := "" } (by decide)).1 rfl
      (by decide),
   (C6_blank_string "40A" "SUBSURVEY" { value_A := "" } (by decide)).2.1 rfl⟩

/-- C7: a parameter name matching no column of the open partition's
Header or Photometry tables makes the accessor return 0 (not-present)
with the caller-held pointer set to the `-999` sentinel after a linear
search on the first call; every later call holding that pointer returns
0 again without running the search; and on the first record of a newly
opened file-pair the pointer is reset, so the search reruns regardless
of the held pointer. -/
theorem C7_unknown_param (MXPAR : Nat) (isn ISNFIRST iptr0 : Int)
    (headNames photNames : List String) (parName : String)
    (hH : parName ∉ headNames) (hP : parName ∉ photNames) :
    (isn = ISNFIRST →
      rd_snfitsio_parval_resolve MXPAR isn ISNFIRST iptr0 headNames
        photNames parName =
        { iptr := -999, found := none, retval := some 0,
          searched := true }) ∧
    (isn ≠ ISNFIRST → iptr0 ≠ -999 →
      rd_snfitsio_parval_resolve MXPAR isn ISNFIRST iptr0 headNames
        photNames parName =
        { iptr := -999, found := none, retval := some 0,
          searched := true }) ∧
    (isn ≠ ISNFIRST → iptr0 = -999 →
      rd_snfitsio_parval_resolve MXPAR isn ISNFIRST iptr0 headNames
        photNames parName =
        { iptr := -999, found := none, retval := some 0,
          searched := false }) := by
  have hH9 := IPAR_SNFITSIO_of_not_mem headNames parName hH
  have hP9 := IPAR_SNFITSIO_of_not_mem photNames parName hP
  refine ⟨?_, ?_, ?_⟩
  · intro heq
    simp [rd_snfitsio_parval_resolve, heq, hH9, hP9]
  · intro hne hptr
    simp [rd_snfitsio_parval_resolve, hne, hptr, hH9, hP9]
  · intro hne hptr
    simp [rd_snfitsio_parval_resolve, hne, hptr]

/-- C7 witness: the name `NOPE` against tables with columns SNID and
MJD: searched not-found resolution on the first record, cached
short-circuit on a later record. -/
theorem C7_unknown_param_witness :
    rd_snfitsio_parval_resolve 200 1 1 (-9) ["SNID"] ["MJD"] "NOPE" =
      { iptr := -999, found := none, retval := some 0, searched := true } ∧
    rd_snfitsio_parval_resolve 200 5 1 (-999) ["SNID"] ["MJD"] "NOPE" =
      { iptr := -999, found := none, retval := some 0, searched := false } :=
  ⟨(C7_unknown_param 200 1 1 (-9) ["SNID"] ["MJD"] "NOPE" (by decide)
      (by decide)).1 rfl,
   (C7_unknown_param 200 5 1 (-999) ["SNID"] ["MJD"] "NOPE" (by decide)
      (by decide)).2.2 (by decide) rfl⟩

/-- C9 (counterexample): declaring a column with an empty name does not
fail — `wr_snfitsio_addCol` performs no name validation and appends the
empty-named descriptor, refuting the claim that every empty-name
declaration aborts fatally. -/
theorem C9_addCol_cex :
    wr_snfitsio_addCol 10 "16A" "" ⟨[]⟩ = .ok ⟨[("", "16A")]⟩ := by decide

/-- C9 (amended): `wr_snfitsio_addCol` validates only the column count —
empty names are accepted — aborting exactly when the incremented count
reaches the fixed bound `MXPAR_SNFITSIO` (so at most `MXPAR - 1` columns
fit); otherwise the declared column is appended and receives the next
1-based ordinal position for its table kind. -/
theorem C9_addCol_amended (MXPAR : Nat) (tform name : String)
    (st : TableDef) :
    (MXPAR ≤ st.cols.length + 1 →
      wr_snfitsio_addCol MXPAR tform name st =
        .error (.colOverflow (st.cols.length + 1))) ∧
    (st.cols.length + 1 < MXPAR →
      ∃ st', wr_snfitsio_addCol MXPAR tform name st = .ok st' ∧
        st'.cols = st.cols ++ [(name, tform)] ∧
        st'.cols.length = st.cols.length + 1 ∧
        (name ∉ st.cols.map Prod.fst →
          IPAR_SNFITSIO (st'.cols.map Prod.fst) name =
            (st.cols.length : Int) + 1)) := by
  constructor
  · intro hge
    simp only [wr_snfitsio_addCol]
    rw [if_pos hge]
  · intro hlt
    simp only [wr_snfitsio_addCol]
    rw [if_neg (by omega)]
    refine ⟨_, rfl, rfl, by simp, ?_⟩
    intro hfresh
    show IPAR_SNFITSIO ((st.cols ++ [(name, tform)]).map Prod.fst) name = _
    rw [List.map_append]
    simp only [List.map_cons, List.map_nil, IPAR_SNFITSIO]
    rw [ipar_scan_append_fresh (st.cols.map Prod.fst) name 1 hfresh]
    simp only [List.length_map]
    omega

/-- C9 witness: with bound 3, a registry holding two columns rejects a
third-over-the-bound declaration; with bound 10 the declaration lands at
the next ordinal. -/
theorem C9_addCol_witness :
    wr_snfitsio_addCol 3 "1E" "Z" ⟨[("A", "1E"), ("B", "1E")]⟩ =
      .error (.colOverflow 3) ∧
    ∃ st', wr_snfitsio_addCol 10 "1E" "Z" ⟨[("A", "1E"), ("B", "1E")]⟩ =
        .ok st' ∧
      st'.cols = [("A", "1E"), ("B", "1E")] ++ [("Z", "1E")] ∧
      st'.cols.length = ([("A", "1E"), ("B", "1E")] : List (String × String)).length + 1 ∧
      ("Z" ∉ ([("A", "1E"), ("B", "1E")] : List (String × String)).map Prod.fst →
        IPAR_SNFITSIO (st'.cols.map Prod.fst) "Z" =
          (([("A", "1E"), ("B", "1E")] : List (String × String)).length : Int) + 1) :=
  ⟨(C9_addCol_amended 3 "1E" "Z" ⟨[("A", "1E"), ("B", "1E")]⟩).1
      (by norm_num),
   (C9_addCol_amended 10 "1E" "Z" ⟨[("A", "1E"), ("B", "1E")]⟩).2
      (by norm_num)⟩

/-- C10: `SET_RDMASK_SNFITSIO` aborts when `NEP` reaches the fixed epoch
bound; a call with `NEP = 0` disables the mask and ignores the mask
array entirely (no entries stored, for every mask array); with
`0 < NEP` it aborts on any entry other than 0 or 1 and otherwise stores
exactly the first `NEP` entries. -/
theorem C10_rdmask (MXEPOCH : Nat) (NEP : Int) (mask : List Int) :
    ((MXEPOCH : Int) ≤ NEP →
      SET_RDMASK_SNFITSIO MXEPOCH NEP mask = .error (.nepBound NEP)) ∧
    (NEP < (MXEPOCH : Int) → NEP = 0 →
      SET_RDMASK_SNFITSIO MXEPOCH NEP mask = .ok (0, [])) ∧
    (NEP < (MXEPOCH : Int) → NEP ≠ 0 →
      ((∃ m ∈ mask.take NEP.toNat, m ≠ 0 ∧ m ≠ 1) →
        ∃ bad, SET_RDMASK_SNFITSIO MXEPOCH NEP mask =
            .error (.maskInvalid bad) ∧
          bad ∈ mask.take NEP.toNat ∧ bad ≠ 0 ∧ bad ≠ 1) ∧
      ((∀ m ∈ mask.take NEP.toNat, m = 0 ∨ m = 1) →
        SET_RDMASK_SNFITSIO MXEPOCH NEP mask =
          .ok (NEP, mask.take NEP.toNat))) := by
  refine ⟨?_, ?_, ?_⟩
  · intro hge
    simp only [ SET_RDMASK_SNFITSIO]
    rw [if_pos hge]
  · intro hlt h0
    simp only [ SET_RDMASK_SNFITSIO]
    rw [if_neg (by omega), if_pos h0]
  · intro hlt h0
    constructor
    · intro hbad
      simp only [ SET_RDMASK_SNFITSIO]
      rw [if_neg (by omega), if_neg h0]
      cases hf : (mask.take NEP.toNat).find?
          (fun JVAL => ¬ (JVAL = 0 ∨ JVAL = 1)) with
      | none =>
        rw [List.find?_eq_none] at hf
        obtain ⟨m, hm, hm0, hm1⟩ := hbad
        exact absurd (by simp [hm0, hm1]) (hf m hm)
      | some bad =>
        have hp := List.find?_some hf
        have hmem := List.mem_of_find?_eq_some hf
        simp only [decide_not, Bool.not_eq_eq_eq_not, Bool.not_true,
          decide_eq_false_iff_not] at hp
        push_neg at hp
        exact ⟨bad, rfl, hmem, hp.1, hp.2⟩
    · intro hok
      simp only [ SET_RDMASK_SNFITSIO]
      rw [if_neg (by omega), if_neg h0]
      have hf : (mask.take NEP.toNat).find?
          (fun JVAL => ¬ (JVAL = 0 ∨ JVAL = 1)) = none := by
        rw [List.find?_eq_none]
        intro m hm
        simp [hok m hm]
      rw [hf]

/-- C10 witness: bound 5 rejects `NEP = 5`; `NEP = 0` disables the mask
even with junk entries; `NEP = 3` rejects entry 2 and accepts a 0/1
mask. -/
theorem C10_rdmask_witness :
    SET_RDMASK_SNFITSIO 5 5 [] = .error (.nepBound 5) ∧
    SET_RDMASK_SNFITSIO 5 0 [7, 8] = .ok (0, []) ∧
    (∃ bad, SET_RDMASK_SNFITSIO 1000 3 [1, 0, 2] =
        .error (.maskInvalid bad) ∧
      bad ∈ ([1, 0, 2] : List Int).take (3 : Int).toNat ∧
      bad ≠ 0 ∧ bad ≠ 1) ∧
    SET_RDMASK_SNFITSIO 1000 2 [1, 0] = .ok (2, [1, 0]) := by
  refine ⟨(C10_rdmask 5 5 []).1 (by norm_num),
    (C10_rdmask 5 0 [7, 8]).2.1 (by norm_num) rfl,
    ((C10_rdmask 1000 3 [1, 0, 2]).2.2 (by norm_num) (by norm_num)).1
      ⟨2, by decide, by decide, by decide⟩, ?_⟩
  have := ((C10_rdmask 1000 2 [1, 0]).2.2 (by norm_num) (by norm_num)).2
    (by decide)
  simpa using this

theorem rd_parval_loop_active (vs : List FitsVal) (ms : List Int)
    (hlen : ms.length = vs.length) :
    rd_parval_loop true vs ms =
      ((vs.zip ms).filter (fun p => !(p.2 == 0))).map
        (fun p => rdCoerce p.1) := by
  induction vs generalizing ms with
  | nil =>
    rw [rd_parval_loop]
    simp
  | cons v vs ih =>
    cases ms with
    | nil => simp at hlen
    | cons m ms =>
      have hlen2 : ms.length = vs.length := by simpa using hlen
      rw [rd_parval_loop]
      by_cases hm : m = 0
      · subst hm
        simpa using ih ms hlen2
      · simpa [hm] using ih ms hlen2

/-- C8: with an active global epoch mask whose size equals the record's
epoch count, the Photometry branch of `RD_SNFITSIO_PARVAL` returns
exactly the stored values of the masked-in epochs, in original epoch
order; when every epoch is masked out it returns the all-masked sentinel
`-9`, which is distinct from the not-present return value 0. -/
theorem C8_epoch_mask (colVals : List FitsVal) (RDMASK : List Int)
    (hne : colVals ≠ []) (hlen : RDMASK.length = colVals.length) :
    (rd_snfitsio_parval_phot colVals (colVals.length : Int) RDMASK =
      (let picked := ((colVals.zip RDMASK).filter
          (fun p => !(p.2 == 0))).map (fun p => rdCoerce p.1)
       if picked.length = 0 then .ok (-9, picked)
       else .ok ((picked.length : Int), picked))) ∧
    ((∀ m ∈ RDMASK, m = 0) →
      rd_snfitsio_parval_phot colVals (colVals.length : Int) RDMASK =
        .ok (-9, [])) ∧
    ((-9 : Int) ≠ 0) := by
  have hlen0 : colVals.length ≠ 0 := fun h0 => hne (List.eq_nil_of_length_eq_zero h0)
  have hmain : rd_snfitsio_parval_phot colVals (colVals.length : Int) RDMASK =
      (let picked := ((colVals.zip RDMASK).filter
          (fun p => !(p.2 == 0))).map (fun p => rdCoerce p.1)
       if picked.length = 0 then .ok (-9, picked)
       else .ok ((picked.length : Int), picked)) := by
    simp only [rd_snfitsio_parval_phot]
    rw [if_neg (fun hcon => hcon.2 rfl)]
    have hdec : decide ((colVals.length : Int) ≠ 0) = true :=
      decide_eq_true (by exact_mod_cast hlen0)
    rw [hdec, rd_parval_loop_active colVals RDMASK hlen]
  refine ⟨hmain, ?_, by norm_num⟩
  intro h0
  rw [hmain]
  have hfil : (colVals.zip RDMASK).filter (fun p => !(p.2 == 0)) = [] := by
    rw [List.filter_eq_nil_iff]
    intro p hp
    have := h0 p.2 (List.of_mem_zip hp).2
    simp [this]
  simp [hfil]

/-- C8 witness: five epochs with mask `[1,0,1,0,1]` yield exactly the
three values of epochs 1, 3, 5 in order with return count 3; the
all-zero mask yields the `-9` sentinel. -/
theorem C8_epoch_mask_witness :
    rd_snfitsio_parval_phot [.E1 11, .E1 22, .E1 33, .E1 44, .E1 55]
        (5 : Int) [1, 0, 1, 0, 1] =
      .ok (3, [.E1 11, .E1 33, .E1 55]) ∧
    rd_snfitsio_parval_phot [.E1 11, .E1 22] (2 : Int) [0, 0] =
      .ok (-9, []) := by
  have h1 := (C8_epoch_mask [.E1 11, .E1 22, .E1 33, .E1 44, .E1 55]
    [1, 0, 1, 0, 1] (by decide) (by decide)).1
  have h2 := (C8_epoch_mask [.E1 11, .E1 22] [0, 0] (by decide)
    (by decide)).2.1 (by decide)
  constructor
  · rw [show ((5 : Int)) = (([FitsVal.E1 11, .E1 22, .E1 33, .E1 44,
      .E1 55].length : Nat) : Int) by decide, h1]
    decide
  · rw [show ((2 : Int)) = (([FitsVal.E1 11, .E1 22].length : Nat) : Int)
      by decide, h2]

/-- C2 (counterexample): writing two one-epoch records into a fresh
partition yields header pointer ranges (1,1) and (3,3) — the
end-of-event row written after each record sits between them — so
`PTROBS_MAX(r) + 1 = PTROBS_MIN(r+1)` fails for consecutive records. -/
theorem C2_pointer_cex :
    runEvents [evA, evA] = .ok stAA ∧
    ¬ List.Chain' (fun a b => a.PTROBS_MAX + 1 = b.PTROBS_MIN)
      stAA.headRows := by
  constructor
  · decide
  · intro hch
    have hch2 : stAA.headRows = [⟨1, 1, 1, []⟩, ⟨1, 3, 3, []⟩] := rfl
    rw [hch2, List.chain'_pair] at hch
    exact absurd (show (1 : Int) + 1 = 3 from hch) (by norm_num)

/-- C2 (amended): in any successful partition write every header row
satisfies `PTROBS_MAX - PTROBS_MIN + 1 = NOBS`, and consecutive records
satisfy `PTROBS_MAX(r) + 2 = PTROBS_MIN(r+1)`: exactly one synthetic
end-of-event row separates consecutive pointer ranges, shifting the
spec's `+ 1` to `+ 2`. -/
theorem C2_pointer_amended (evs : List Event) (st : WrState)
    (h : runEvents evs = .ok st) :
    (∀ hd ∈ st.headRows, hd.PTROBS_MAX - hd.PTROBS_MIN + 1 = hd.NOBS) ∧
    List.Chain' (fun a b => a.PTROBS_MAX + 2 = b.PTROBS_MIN)
      st.headRows := by
  have hinv := runEventsFrom_PtrInv PtrInv_empty h
  exact ⟨hinv.1, hinv.2.1⟩

/-- C2 witness: the two-record write satisfies the amended pointer
arithmetic. -/
theorem C2_pointer_witness :
    (∀ hd ∈ stAA.headRows, hd.PTROBS_MAX - hd.PTROBS_MIN + 1 = hd.NOBS) ∧
    List.Chain' (fun a b => a.PTROBS_MAX + 2 = b.PTROBS_MIN)
      stAA.headRows :=
  C2_pointer_amended [evA, evA] stAA (by decide)

/-- C3: after the last real epoch of the last record written to a
partition exactly one Photometry row follows — the synthetic
end-of-event row — carrying the reserved sentinel in its MJD, FLUXCAL
and FLUXCAL_ERRTOT fields and the fixed placeholder strings in its BAND
and FIELD fields, so a reader validating pointer arithmetic can detect
it by the reserved marker value. -/
theorem C3_eoe_marker (evs : List Event) (ev : Event) (st : WrState)
    (h : runEvents (evs ++ [ev]) = .ok st) :
    ∃ hd, st.headRows.getLast? = some hd ∧
      (st.photRows.length : Int) = hd.PTROBS_MAX + 1 ∧
      st.photRows.drop hd.PTROBS_MAX.toNat = [eoeRow ev] ∧
      (eoeRow ev).MJD = SNFITSIO_EOE_MARKER ∧
      (eoeRow ev).FLUXCAL = SNFITSIO_EOE_MARKER ∧
      (eoeRow ev).FLUXCAL_ERRTOT = SNFITSIO_EOE_MARKER ∧
      (eoeRow ev).BAND = "-" ∧ (eoeRow ev).FIELD = "XXXX" := by
  obtain ⟨st0, h0, h1⟩ := runEventsFrom_append_ok h
  obtain ⟨st1, hw, hdone⟩ := runEventsFrom_cons_ok h1
  rw [runEventsFrom] at hdone
  injection hdone with hst
  subst hst
  obtain ⟨hn, hh, hp⟩ := WR_update_ok hw
  have hlenPR : (photRowsOf ev).length = (usedEpochs ev).length := by
    rw [photRowsOf, List.length_map]
  refine ⟨{ NOBS := ev.NOBS, PTROBS_MIN := (st0.photRows.length : Int) + 1,
            PTROBS_MAX := (st0.photRows.length : Int) + ev.NOBS,
            others := ev.headOthers }, ?_, ?_, ?_, rfl, rfl, rfl, rfl, rfl⟩
  · rw [hh, List.getLast?_concat]
  · show (st1.photRows.length : Int) =
      ((st0.photRows.length : Int) + ev.NOBS) + 1
    rw [hp]
    simp only [List.length_append, List.length_cons, List.length_nil]
    push_cast
    omega
  · have hmax : (((st0.photRows.length : Int) + ev.NOBS)).toNat =
        (st0.photRows ++ photRowsOf ev).length := by
      simp only [List.length_append]
      omega
    rw [hp, ← List.append_assoc]
    show ((st0.photRows ++ photRowsOf ev) ++ [eoeRow ev]).drop
      (((st0.photRows.length : Int) + ev.NOBS)).toNat = [eoeRow ev]
    rw [hmax, List.drop_left]

/-- C3 witness: after writing `evA` twice, the row past the last
record's `PTROBS_MAX` is exactly the end-of-event row. -/
theorem C3_eoe_marker_witness :
    ∃ hd, stAA.headRows.getLast? = some hd ∧
      (stAA.photRows.length : Int) = hd.PTROBS_MAX + 1 ∧
      stAA.photRows.drop hd.PTROBS_MAX.toNat = [eoeRow evA] ∧
      (eoeRow evA).MJD = SNFITSIO_EOE_MARKER ∧
      (eoeRow evA).FLUXCAL = SNFITSIO_EOE_MARKER ∧
      (eoeRow evA).FLUXCAL_ERRTOT = SNFITSIO_EOE_MARKER ∧
      (eoeRow evA).BAND = "-" ∧ (eoeRow evA).FIELD = "XXXX" :=
  C3_eoe_marker [evA] evA stAA (by decide)

/-- C1 (counterexample): `HOSTGAL_OBJID` is a declared 64-bit (`1K`)
scalar header column (src line 258); the write path stores
9007199254740993 = 2^53 + 1 exactly, but `RD_SNFITSIO_PARVAL` returns
it through its `double` output buffer, which rounds it to 2^53, so the
read-back does not reproduce the stored integer field. -/
theorem C1_roundtrip_cex :
    wr_snfitsio_fillTable "1K" "HOSTGAL_OBJID"
        { value_1K := 9007199254740993 } = .ok (.K1 9007199254740993) ∧
    rdCoerce (.K1 9007199254740993) = .K1 9007199254740992 ∧
    (9007199254740993 : Int) ≠ 9007199254740992 := by
  refine ⟨by decide, ?_, by decide⟩
  show FitsVal.K1 (doubleRound 9007199254740993) = FitsVal.K1 9007199254740992
  have hlog : Nat.log2 (Int.natAbs 9007199254740993) = 53 := by
    have h53 : 53 ≤ Nat.log2 (Int.natAbs 9007199254740993) :=
      (Nat.le_log2 (by norm_num)).mpr (by norm_num)
    have h54 : ¬ 54 ≤ Nat.log2 (Int.natAbs 9007199254740993) := by
      rw [Nat.le_log2 (by norm_num)]
      norm_num
    omega
  simp only [doubleRound]
  rw [hlog]
  decide

/-- C1 (amended): writing a record then reading it back through the
generic accessor reproduces every string, 16-bit-integer,
32-bit-integer, float and double cell exactly (bit-exact: this layer
applies no re-encoding to them), and the record's Photometry block read
over `[PTROBS_MIN, PTROBS_MAX]` is exactly the sequence of epoch rows
written for that record; a 64-bit integer cell, returned through the
accessor's `double` output, is reproduced exactly only when its value
fits in 53 significand bits. -/
theorem C1_roundtrip_amended (evs : List Event) (st : WrState) (r : Nat)
    (hrun : runEvents evs = .ok st) (hr : r < evs.length) :
    (∃ hd, st.headRows[r]? = some hd ∧
      (st.photRows.take hd.PTROBS_MAX.toNat).drop (hd.PTROBS_MIN.toNat - 1)
        = photRowsOf (evs.get ⟨r, hr⟩)) ∧
    (∀ form parName slots v,
      wr_snfitsio_fillTable form parName slots = .ok v →
      kFits v → rdCoerce v = v) := by
  constructor
  · have hsl := runEventsFrom_slice hrun r hr
    have h0 : (({} : WrState)).headRows.length = 0 := rfl
    rw [h0, Nat.zero_add] at hsl
    exact hsl
  · intro form parName slots v hwrite hk
    cases v with
    | A s => rfl
    | I1 k => rfl
    | J1 k => rfl
    | E1 c => rfl
    | D1 c => rfl
    | K1 k =>
      have hk2 := hk k rfl
      show FitsVal.K1 (doubleRound k) = FitsVal.K1 k
      simp only [doubleRound]
      rw [if_pos hk2]

/-- C1 witness: the first record of the two-record write reads back as
its own epoch block, and marshalled cells round-trip. -/
theorem C1_roundtrip_witness :
    (∃ hd, stAA.headRows[0]? = some hd ∧
      (stAA.photRows.take hd.PTROBS_MAX.toNat).drop
        (hd.PTROBS_MIN.toNat - 1)
        = photRowsOf ([evA, evA].get ⟨0, by decide⟩)) ∧
    (∀ form parName slots v,
      wr_snfitsio_fillTable form parName slots = .ok v →
      kFits v → rdCoerce v = v) :=
  C1_roundtrip_amended [evA, evA] stAA 0 (by decide) (by decide)
